import Mathlib

/-!
Shallow embedding of the hyper-express-body-parser body ingestion engine:
the shared pipeline of `src/shared.js` (`validate_request`, `attempt_body`)
and the three adaptor middlewares (raw, JSON, text).

JavaScript values flowing through the pipeline (Buffers, strings, the parsed
JSON object, `undefined`) are modelled by `JSValue`; byte payloads and decoded
strings are both represented as lists of naturals (bytes, respectively code
units).  External collaborators (zlib, iconv-lite, raw-body, the HyperExpress
transport) are modelled at their interface boundary: an `Env` record supplies
the decoding functions, and the `Request` record carries the data the
transport delivers for this request (raw body bytes, the drained
decompression output, and the sequence of limit/flush events).
-/

namespace BodyParser

abbrev Bytes := List Nat

/-- A JavaScript value as it appears in `request.body` or in the pipeline. -/
inductive JSValue where
  | undef
  | buf (data : Bytes)
  | str (data : Bytes)
  | obj
deriving DecidableEq

/-- JavaScript truthiness for the values we model
(`!request.body`, `if (buffer)`, `if (attempt)`). -/
def JSValue.truthy : JSValue → Bool
  | .undef => false
  | .buf _ => true
  | .str d => !d.isEmpty
  | .obj => true

/-- Payload bytes / code units underlying a Buffer or a string. -/
def JSValue.rawData : JSValue → Bytes
  | .buf d => d
  | .str d => d
  | _ => []

/-- Result of draining a stream: the zlib decompression output for this
request body, or a stream error (corrupt compressed data, client abort). -/
inductive StreamData where
  | ok (bytes : Bytes)
  | failed
deriving DecidableEq

/-- The transport response object: whether a response has been initiated and
the list of status codes sent so far. -/
structure Response where
  initiated : Bool
  sends : List Nat
deriving DecidableEq

/-- `response.status(s).send()`. -/
def Response.send (resp : Response) (status : Nat) : Response :=
  { initiated := true, sends := resp.sends ++ [status] }

/-- A fresh per-request response on which nothing has been sent yet. -/
def fresh_response : Response := { initiated := false, sends := [] }

/-- The per-request state visible to the parser: the negotiated headers, the
idempotence flag, whether the transport declares a body, the transport body
data, the limit/flush event sequence, and the `body` property. -/
structure Request where
  contentEncodingHeader : Option String
  charsetParam : Option String
  received : Bool
  hasBody : Bool
  rawBytes : Bytes
  decompressed : StreamData
  limitEvents : List (Nat × Bool)
  body : JSValue
deriving DecidableEq

/-- The `ParserConditions` record assembled by each adaptor middleware. -/
structure Conditions where
  inflate : Bool
  limit : Nat
  verify_body : Option (Request → JSValue → String → Bool)
  base_encoding : Option String
  verify_encoding : Option (Option String → Bool)
  match_type : Request → Bool

/-- External decoding collaborators (iconv-lite, `Buffer.prototype.toString`,
`JSON.parse`), modelled at their interfaces. -/
structure Env where
  iconvSupported : String → Bool
  iconvDecode : Bytes → String → Bytes
  bufferToString : Bytes → String → Bytes
  jsonParse : Bytes → Option JSValue

/-- Observable pipeline events, used to state ordering and teardown
properties of the ingestion pipeline. -/
inductive Event where
  | sent (status : Nat)
  | bytesRead
  | transformConstructed
  | transformDestroyed
  | unpiped
  | flushed
  | hookInvoked
  | charsetDecoded
deriving DecidableEq

/-- Result of `attempt_body`: either the settled promise (the optional
`BodyAttempt`, the final response state and the event trace), or `hung` when
the awaited promise can never resolve. -/
inductive AttemptResult where
  | done (attempt : Option (JSValue × Option String)) (resp : Response) (trace : List Event)
  | hung
deriving DecidableEq

/-- `validate_request` from `src/shared.js`: the eligibility gate. -/
def validate_request (r : Request) (c : Conditions) : Bool :=
  if r.received then false
  else if !r.hasBody then false
  else if !c.match_type r then false
  else true

/-- ASCII lowercasing of a header value (`String.prototype.toLowerCase`). -/
def lower_string (s : String) : String :=
  String.mk (s.data.map Char.toLower)

/-- `(request.headers['content-encoding'] || 'identity').toLowerCase()`. -/
def content_encoding_of (r : Request) : String :=
  lower_string (r.contentEncodingHeader.getD "identity")

/-- `content_type.parse(request.headers['content-type']).parameters.charset
|| base_encoding`: the negotiated charset. -/
def negotiated_charset (r : Request) (c : Conditions) : Option String :=
  match r.charsetParam with
  | some e => some e
  | none => c.base_encoding

/-- `verify_encoding ? !verify_encoding(request_encoding) : false`. -/
def bad_encoding (r : Request) (c : Conditions) : Bool :=
  match c.verify_encoding with
  | some v => !v (negotiated_charset r c)
  | none => false

/-- `inflate === false && content_encoding !== 'identity'`. -/
def bad_compression (r : Request) (c : Conditions) : Bool :=
  !c.inflate && !(content_encoding_of r == "identity")

/-- The `encoding` option handed to the raw-body module:
`typeof verify_body == 'function' ? null : base_encoding`. -/
def rb_encoding (c : Conditions) : Option String :=
  if c.verify_body.isSome then none else c.base_encoding

/-- Whether the encoding handed to raw-body is absent or iconv-supported. -/
def rb_ok (env : Env) (c : Conditions) : Bool :=
  match rb_encoding c with
  | some e => env.iconvSupported e
  | none => true

/-- Error kinds surfaced by the raw-body module. -/
inductive RawBodyError where
  | encodingUnsupported
  | entityTooLarge
  | streamError
deriving DecidableEq

/-- Model of the raw-body module draining a (decompression) stream: the
charset decoder is resolved first (an unrecognized charset fails with the
`encoding.unsupported` error kind), then the stream is read subject to
`limit` (a decoded byte count over the limit fails with the entity-too-large
kind), stream errors (corrupt compressed data) are forwarded, and on success
the bytes are returned raw, or decoded to a string when an encoding was
supplied. -/
def raw_body (env : Env) (data : StreamData) (limit : Nat) (encoding : Option String) :
    Except RawBodyError JSValue :=
  match encoding with
  | some e =>
    if env.iconvSupported e then
      match data with
      | .failed => .error .streamError
      | .ok bytes =>
        if limit < bytes.length then .error .entityTooLarge
        else .ok (.str (env.iconvDecode bytes e))
    else .error .encodingUnsupported
  | none =>
    match data with
    | .failed => .error .streamError
    | .ok bytes =>
      if limit < bytes.length then .error .entityTooLarge
      else .ok (.buf bytes)

/-- The overflow wait of `src/shared.js` (lines 162-175): the pipeline awaits
`limit` events `(bytes, flushed)`; on the first event with `flushed` true
while no response has been initiated it sends 413 and resolves; otherwise it
keeps waiting (`none` models a promise that never resolves). -/
def limit_wait (resp : Response) : List (Nat × Bool) → Option Response
  | [] => none
  | ev :: rest =>
    if ev.2 && !resp.initiated then some (resp.send 413)
    else limit_wait resp rest

/-- The overflow wait of the second `attempt_body` variant (lines 183-197 of
the unnamed source): resolves at the first flushed event, sending 413 only
when the response has not already been initiated. -/
def limit_wait_v2 (resp : Response) : List (Nat × Bool) → Option Response
  | [] => none
  | ev :: rest =>
    if ev.2 then some (if !resp.initiated then resp.send 413 else resp)
    else limit_wait_v2 resp rest

/-- Charset-decoding stage of `attempt_body`
(`if (request_encoding) { buffer = iconv.decode(buffer, request_encoding) }`):
with a negotiated charset the value is decoded by iconv-lite (an unrecognized
charset makes iconv throw, mapped to a 400 response); with no negotiated
charset the buffer is returned unchanged with an absent charset. -/
def decode_stage (env : Env) (resp : Response) (re : Option String) (buffer : JSValue)
    (tr : List Event) : AttemptResult :=
  match re with
  | some e =>
    if env.iconvSupported e then
      .done (some (.str (env.iconvDecode buffer.rawData e), some e)) resp
        (tr ++ [.charsetDecoded])
    else .done none (resp.send 400) (tr ++ [.charsetDecoded, .sent 400])
  | none => .done (some (buffer, none)) resp tr

/-- Verification stage of `attempt_body`
(`verify_body(request, response, buffer, content_encoding) !== true` rejects
with 403), followed by the charset-decoding stage. -/
def hook_stage (env : Env) (r : Request) (resp : Response)
    (vb : Option (Request → JSValue → String → Bool)) (re : Option String)
    (ce : String) (buffer : JSValue) (tr : List Event) : AttemptResult :=
  match vb with
  | some h =>
    if h r buffer ce then
      decode_stage env resp re buffer (tr ++ [.hookInvoked])
    else .done none (resp.send 403) (tr ++ [.hookInvoked, .sent 403])
  | none => decode_stage env resp re buffer tr

/-- `attempt_body` from `src/shared.js`: the 415 pre-checks, bounded
streaming (`request._stream_with_limit(limit)` is true exactly when the raw
body fits the limit), identity passthrough (`request.buffer()`) or zlib
decompression drained through raw-body, the error teardown path
(destroy transform / unpipe request / flush remainder), the verification
hook, charset decoding, and the 413 overflow wait. -/
def attempt_body (env : Env) (r : Request) (resp : Response) (c : Conditions) :
    AttemptResult :=
  if bad_encoding r c || bad_compression r c then
    .done none (resp.send 415) [.sent 415]
  else if r.rawBytes.length ≤ c.limit then
    if content_encoding_of r = "identity" then
      hook_stage env r resp c.verify_body (negotiated_charset r c)
        (content_encoding_of r) (.buf r.rawBytes) [.bytesRead]
    else if content_encoding_of r = "deflate" ∨ content_encoding_of r = "gzip" then
      match raw_body env r.decompressed c.limit (rb_encoding c) with
      | .ok buffer =>
        hook_stage env r resp c.verify_body (negotiated_charset r c)
          (content_encoding_of r) buffer [.transformConstructed, .bytesRead]
      | .error err =>
        .done none (resp.send (if err = RawBodyError.encodingUnsupported then 415 else 400))
          [.transformConstructed, .bytesRead, .transformDestroyed, .unpiped, .flushed,
            .sent (if err = RawBodyError.encodingUnsupported then 415 else 400)]
    else .done none (resp.send 415) [.sent 415]
  else
    match limit_wait resp r.limitEvents with
    | some resp2 => .done none resp2 [.flushed, .sent 413]
    | none => .hung

/-- Outcome of a full middleware pass over one request. -/
inductive Outcome where
  | accepted (buffer : JSValue) (charset : Option String)
  | rejected (status : Nat)
  | skipped
deriving DecidableEq

/-- Final state of a middleware pass: the request, the response, the outcome. -/
structure RunResult where
  request : Request
  response : Response
  outcome : Outcome
deriving DecidableEq

/-- `if (!request.body) request.body = default` (JS truthiness). -/
def init_body (r : Request) (v : JSValue) : Request :=
  if r.body.truthy then r else { r with body := v }

/-- The raw adaptor middleware of `src/components/raw.js`: initialize the
body to an empty Buffer, gate, attempt, and on success store the buffer. -/
def run_raw (env : Env) (c : Conditions) (r : Request) (resp : Response) :
    Option RunResult :=
  if validate_request (init_body r (JSValue.buf [])) c then
    match attempt_body env (init_body r (JSValue.buf [])) resp c with
    | .done (some (b, ch)) resp2 _ =>
      some ⟨{ init_body r (JSValue.buf []) with body := b }, resp2, .accepted b ch⟩
    | .done none resp2 _ =>
      some ⟨init_body r (JSValue.buf []), resp2, .rejected (resp2.sends.getLastD 0)⟩
    | .hung => none
  else some ⟨init_body r (JSValue.buf []), resp, .skipped⟩

/-- `buffer.toString(charset)`: strings return themselves, Buffers decode
through the Node Buffer toString with the charset (defaulting to utf-8). -/
def js_to_string (env : Env) (v : JSValue) (charset : Option String) : Bytes :=
  match v with
  | .str d => d
  | .buf d => env.bufferToString d (charset.getD "utf-8")
  | _ => []

/-- The JSON adaptor middleware (`create_json_parser`): initialize the body
to an empty object, gate, attempt, strict first-character check
(`{` is 123, `[` is 91) and `JSON.parse`, each failure sending 400. -/
def run_json (env : Env) (strict : Bool) (c : Conditions) (r : Request)
    (resp : Response) : Option RunResult :=
  if validate_request (init_body r JSValue.obj) c then
    match attempt_body env (init_body r JSValue.obj) resp c with
    | .done (some (b, ch)) resp2 _ =>
      if strict && !(((js_to_string env b ch).headD 0 == 123)
          || ((js_to_string env b ch).headD 0 == 91)) then
        some ⟨init_body r JSValue.obj, resp2.send 400, .rejected 400⟩
      else
        match env.jsonParse (js_to_string env b ch) with
        | some v => some ⟨{ init_body r JSValue.obj with body := v }, resp2, .accepted b ch⟩
        | none => some ⟨init_body r JSValue.obj, resp2.send 400, .rejected 400⟩
    | .done none resp2 _ =>
      some ⟨init_body r JSValue.obj, resp2, .rejected (resp2.sends.getLastD 0)⟩
    | .hung => none
  else some ⟨init_body r JSValue.obj, resp, .skipped⟩

/-- Modelled from the spec: the text adaptor invokes `attempt_body_buffer`,
whose definition is absent from the available sources (only its call site in
`create_text_parser` is present); per the engine interface described by the
spec it is the shared ingestion attempt whose produced value is the
materialized, possibly charset-decoded buffer. -/
def attempt_body_buffer (env : Env) (r : Request) (resp : Response) (c : Conditions) :
    AttemptResult :=
  attempt_body env r resp c

/-- The text adaptor middleware (`create_text_parser`): initialize the body
to an empty string, gate, attempt; note the JS truthiness guard
`if (buffer)` before assigning `request.body`. -/
def run_text (env : Env) (c : Conditions) (r : Request) (resp : Response) :
    Option RunResult :=
  if validate_request (init_body r (JSValue.str [])) c then
    match attempt_body_buffer env (init_body r (JSValue.str [])) resp c with
    | .done (some (b, ch)) resp2 _ =>
      if b.truthy then
        some ⟨{ init_body r (JSValue.str []) with body := b }, resp2, .accepted b ch⟩
      else some ⟨init_body r (JSValue.str []), resp2, .accepted b ch⟩
    | .done none resp2 _ =>
      some ⟨init_body r (JSValue.str []), resp2, .rejected (resp2.sends.getLastD 0)⟩
    | .hung => none
  else some ⟨init_body r (JSValue.str []), resp, .skipped⟩

/-- A concrete environment used by witnesses and counterexamples. -/
def envW : Env :=
  { iconvSupported := fun e => e == "utf-8" || e == "latin1"
    iconvDecode := fun b _ => b
    bufferToString := fun b _ => b
    jsonParse := fun _ => some JSValue.obj }

/-- A concrete identity-encoded request with a client-declared charset. -/
def reqIdW : Request :=
  { contentEncodingHeader := none, charsetParam := some "utf-8", received := false,
    hasBody := true, rawBytes := [104, 105], decompressed := .ok [104, 105],
    limitEvents := [(0, true)], body := .undef }

/-- A concrete gzip request whose small compressed body decompresses past
the limit of `condRawW` (a decompression bomb). -/
def reqGzW : Request :=
  { contentEncodingHeader := some "gzip", charsetParam := none, received := false,
    hasBody := true, rawBytes := [1, 2], decompressed := .ok [1, 2, 3, 4],
    limitEvents := [(0, true)], body := .undef }

/-- Concrete raw-parser conditions with a 3-byte limit. -/
def condRawW : Conditions :=
  { inflate := true, limit := 3, verify_body := none, base_encoding := none,
    verify_encoding := none, match_type := fun _ => true }

/-- A truthy JS value is not `undefined`. -/
theorem JSValue.truthy_ne_undef (v : JSValue) (h : v.truthy = true) : v ≠ JSValue.undef := by
  intro he
  subst he
  simp [JSValue.truthy] at h

/-- If the overflow wait of `src/shared.js` resolves, it resolved by sending
exactly one 413. -/
theorem limit_wait_some_eq (resp resp2 : Response) (evs : List (Nat × Bool))
    (h : limit_wait resp evs = some resp2) : resp2 = resp.send 413 := by
  induction evs with
  | nil => simp [limit_wait] at h
  | cons ev rest ih =>
    simp only [limit_wait] at h
    split at h
    · exact (Option.some_inj.mp h).symm
    · exact ih h

/-- With no response initiated and a flushed limit event available, the
overflow wait resolves by sending 413. -/
theorem limit_wait_resolves (resp : Response) (evs : List (Nat × Bool))
    (h1 : resp.initiated = false) (h2 : evs.any (fun p => p.2) = true) :
    limit_wait resp evs = some (resp.send 413) := by
  induction evs with
  | nil => simp at h2
  | cons ev rest ih =>
    simp only [List.any_cons, Bool.or_eq_true] at h2
    simp only [limit_wait]
    by_cases hev : ev.2 = true
    · rw [if_pos (by simp [hev, h1])]
    · rw [if_neg (by simp [hev])]
      exact ih (h2.resolve_left hev)

/-- Before any flushed event the overflow wait emits nothing. -/
theorem limit_wait_no_flush (resp : Response) (evs : List (Nat × Bool))
    (h : evs.all (fun p => !p.2) = true) : limit_wait resp evs = none := by
  induction evs with
  | nil => rfl
  | cons ev rest ih =>
    simp only [List.all_cons, Bool.and_eq_true, Bool.not_eq_eq_eq_not, Bool.not_true] at h
    simp only [limit_wait]
    rw [if_neg (by simp [h.1])]
    exact ih h.2

/-- With a response already initiated the overflow wait of `src/shared.js`
never emits anything (and never resolves). -/
theorem limit_wait_initiated (resp : Response) (evs : List (Nat × Bool))
    (h : resp.initiated = true) : limit_wait resp evs = none := by
  induction evs with
  | nil => rfl
  | cons ev rest ih =>
    simp only [limit_wait]
    rw [if_neg (by simp [h])]
    exact ih

/-- With a response already initiated the second overflow-wait variant
resolves without sending anything. -/
theorem limit_wait_v2_initiated (resp : Response) (evs : List (Nat × Bool))
    (h : resp.initiated = true) (resp2 : Response)
    (hres : limit_wait_v2 resp evs = some resp2) : resp2 = resp := by
  induction evs with
  | nil => simp [limit_wait_v2] at hres
  | cons ev rest ih =>
    simp only [limit_wait_v2] at hres
    split at hres
    · simp only [h, Bool.not_true, Bool.false_eq_true, if_false] at hres
      exact (Option.some_inj.mp hres).symm
    · exact ih hres

/-- Every settled charset-decode stage either accepts with the response
untouched or rejects after exactly one send. -/
theorem decode_stage_cases (env : Env) (resp : Response) (re : Option String)
    (buffer : JSValue) (tr : List Event) :
    (∃ b ch tr2, decode_stage env resp re buffer tr = .done (some (b, ch)) resp tr2) ∨
    (∃ s tr2, decode_stage env resp re buffer tr = .done none (resp.send s) tr2) := by
  rcases re with _ | e
  · exact Or.inl ⟨buffer, none, tr, rfl⟩
  · by_cases hs : env.iconvSupported e = true
    · exact Or.inl ⟨.str (env.iconvDecode buffer.rawData e), some e,
        tr ++ [.charsetDecoded], by simp only [decode_stage]; rw [if_pos hs]⟩
    · exact Or.inr ⟨400, tr ++ [.charsetDecoded, .sent 400],
        by simp only [decode_stage]; rw [if_neg hs]⟩

/-- Every settled verification-plus-decode stage either accepts with the
response untouched or rejects after exactly one send. -/
theorem hook_stage_cases (env : Env) (r : Request) (resp : Response)
    (vb : Option (Request → JSValue → String → Bool)) (re : Option String)
    (ce : String) (buffer : JSValue) (tr : List Event) :
    (∃ b ch tr2, hook_stage env r resp vb re ce buffer tr = .done (some (b, ch)) resp tr2) ∨
    (∃ s tr2, hook_stage env r resp vb re ce buffer tr = .done none (resp.send s) tr2) := by
  rcases vb with _ | h
  · simp only [hook_stage]
    exact decode_stage_cases env resp re buffer tr
  · by_cases hh : h r buffer ce = true
    · simp only [hook_stage]
      rw [if_pos hh]
      exact decode_stage_cases env resp re buffer (tr ++ [.hookInvoked])
    · exact Or.inr ⟨403, tr ++ [.hookInvoked, .sent 403],
        by simp only [hook_stage]; rw [if_neg hh]⟩

/-- Every settled `attempt_body` either accepts with the response untouched
or rejects after exactly one send relative to the incoming response. -/
theorem attempt_body_cases (env : Env) (r : Request) (resp : Response) (c : Conditions) :
    attempt_body env r resp c = AttemptResult.hung ∨
    (∃ b ch tr, attempt_body env r resp c = .done (some (b, ch)) resp tr) ∨
    (∃ s tr, attempt_body env r resp c = .done none (resp.send s) tr) := by
  unfold attempt_body
  by_cases h0 : (bad_encoding r c || bad_compression r c) = true
  · rw [if_pos h0]
    exact Or.inr (Or.inr ⟨415, _, rfl⟩)
  rw [if_neg h0]
  by_cases h1 : r.rawBytes.length ≤ c.limit
  · rw [if_pos h1]
    by_cases h2 : content_encoding_of r = "identity"
    · rw [if_pos h2]
      exact Or.inr (hook_stage_cases env r resp _ _ _ _ _)
    rw [if_neg h2]
    by_cases h3 : content_encoding_of r = "deflate" ∨ content_encoding_of r = "gzip"
    · rw [if_pos h3]
      rcases hrb : raw_body env r.decompressed c.limit (rb_encoding c) with err | buffer
      · exact Or.inr (Or.inr
          ⟨(if err = RawBodyError.encodingUnsupported then 415 else 400),
            [Event.transformConstructed, Event.bytesRead, Event.transformDestroyed,
              Event.unpiped, Event.flushed,
              Event.sent (if err = RawBodyError.encodingUnsupported then 415 else 400)], rfl⟩)
      · exact Or.inr (hook_stage_cases env r resp _ _ _ _ _)
    · rw [if_neg h3]
      exact Or.inr (Or.inr ⟨415, [Event.sent 415], rfl⟩)
  · rw [if_neg h1]
    rcases hlw : limit_wait resp r.limitEvents with _ | resp2
    · exact Or.inl rfl
    · have he := limit_wait_some_eq resp resp2 _ hlw
      subst he
      exact Or.inr (Or.inr ⟨413, [Event.flushed, Event.sent 413], rfl⟩)

/-- With an uninitiated response and a flushed limit event available,
`attempt_body` always settles. -/
theorem attempt_body_not_hung (env : Env) (r : Request) (resp : Response) (c : Conditions)
    (h1 : resp.initiated = false) (h2 : r.limitEvents.any (fun p => p.2) = true) :
    attempt_body env r resp c ≠ AttemptResult.hung := by
  unfold attempt_body
  by_cases h0 : (bad_encoding r c || bad_compression r c) = true
  · rw [if_pos h0]
    simp
  rw [if_neg h0]
  by_cases hsz : r.rawBytes.length ≤ c.limit
  · rw [if_pos hsz]
    by_cases h2i : content_encoding_of r = "identity"
    · rw [if_pos h2i]
      rcases hook_stage_cases env r resp c.verify_body (negotiated_charset r c)
        (content_encoding_of r) (.buf r.rawBytes) [.bytesRead] with
        ⟨_, _, _, he⟩ | ⟨_, _, he⟩ <;> simp [he]
    rw [if_neg h2i]
    by_cases h3 : content_encoding_of r = "deflate" ∨ content_encoding_of r = "gzip"
    · rw [if_pos h3]
      rcases hrb : raw_body env r.decompressed c.limit (rb_encoding c) with err | buffer
      · simp
      · rcases hook_stage_cases env r resp c.verify_body (negotiated_charset r c)
          (content_encoding_of r) buffer [.transformConstructed, .bytesRead] with
          ⟨_, _, _, he⟩ | ⟨_, _, he⟩ <;> simp [he]
    · rw [if_neg h3]
      simp
  · rw [if_neg hsz]
    rw [limit_wait_resolves resp r.limitEvents h1 h2]
    simp

/-- raw-body fails with the entity-too-large kind whenever the drained
(decoded) byte count exceeds the limit and the requested encoding is
absent or supported. -/
theorem raw_body_too_large (env : Env) (bytes : Bytes) (limit : Nat) (enc : Option String)
    (hb : limit < bytes.length)
    (hok : (match enc with | some e => env.iconvSupported e | none => true) = true) :
    raw_body env (.ok bytes) limit enc = .error .entityTooLarge := by
  rcases enc with _ | e
  · simp only [raw_body]
    rw [if_pos hb]
  · have hok2 : env.iconvSupported e = true := hok
    simp only [raw_body]
    rw [if_pos hok2, if_pos hb]

/-- raw-body succeeds below the limit: with no encoding it returns the raw
buffer, with a supported encoding the iconv-decoded string. -/
theorem raw_body_under_limit (env : Env) (bytes : Bytes) (limit : Nat)
    (hb : bytes.length ≤ limit) :
    raw_body env (.ok bytes) limit none = .ok (.buf bytes) ∧
    ∀ e, env.iconvSupported e = true →
      raw_body env (.ok bytes) limit (some e) = .ok (.str (env.iconvDecode bytes e)) := by
  constructor
  · simp only [raw_body]
    rw [if_neg (Nat.not_lt.mpr hb)]
  · intro e he
    simp only [raw_body]
    rw [if_pos he, if_neg (Nat.not_lt.mpr hb)]

/-- Branch equation: with the pre-checks passing, the size within the limit
and identity encoding, `attempt_body` is the verification stage applied to
the raw transport buffer. -/
theorem attempt_body_identity (env : Env) (r : Request) (resp : Response) (c : Conditions)
    (hpre : ¬(bad_encoding r c || bad_compression r c) = true)
    (hsz : r.rawBytes.length ≤ c.limit)
    (hid : content_encoding_of r = "identity") :
    attempt_body env r resp c =
      hook_stage env r resp c.verify_body (negotiated_charset r c)
        (content_encoding_of r) (.buf r.rawBytes) [.bytesRead] := by
  unfold attempt_body
  rw [if_neg hpre, if_pos hsz, if_pos hid]

/-- Branch equation: with the pre-checks passing, the size within the limit,
gzip or deflate encoding, and a successful raw-body drain, `attempt_body` is
the verification stage applied to the materialized value. -/
theorem attempt_body_compressed_ok (env : Env) (r : Request) (resp : Response)
    (c : Conditions) (buffer : JSValue)
    (hpre : ¬(bad_encoding r c || bad_compression r c) = true)
    (hsz : r.rawBytes.length ≤ c.limit)
    (hne : content_encoding_of r ≠ "identity")
    (hor : content_encoding_of r = "deflate" ∨ content_encoding_of r = "gzip")
    (hrb : raw_body env r.decompressed c.limit (rb_encoding c) = .ok buffer) :
    attempt_body env r resp c =
      hook_stage env r resp c.verify_body (negotiated_charset r c)
        (content_encoding_of r) buffer [.transformConstructed, .bytesRead] := by
  unfold attempt_body
  rw [if_neg hpre, if_pos hsz, if_neg hne, if_pos hor, hrb]

/-- Branch equation: with the pre-checks passing, the size within the limit,
gzip or deflate encoding, and a failing raw-body drain, `attempt_body`
tears the transform down and rejects with 415 for the
unsupported-encoding kind and 400 otherwise. -/
theorem attempt_body_compressed_err (env : Env) (r : Request) (resp : Response)
    (c : Conditions) (err : RawBodyError)
    (hpre : ¬(bad_encoding r c || bad_compression r c) = true)
    (hsz : r.rawBytes.length ≤ c.limit)
    (hne : content_encoding_of r ≠ "identity")
    (hor : content_encoding_of r = "deflate" ∨ content_encoding_of r = "gzip")
    (hrb : raw_body env r.decompressed c.limit (rb_encoding c) = .error err) :
    attempt_body env r resp c =
      .done none (resp.send (if err = RawBodyError.encodingUnsupported then 415 else 400))
        [.transformConstructed, .bytesRead, .transformDestroyed, .unpiped, .flushed,
          .sent (if err = RawBodyError.encodingUnsupported then 415 else 400)] := by
  unfold attempt_body
  rw [if_neg hpre, if_pos hsz, if_neg hne, if_pos hor, hrb]

/-- The verification stage with a configured hook that fails rejects with
403 and performs no charset decoding. -/
theorem hook_stage_some_false (env : Env) (r : Request) (resp : Response)
    (re : Option String) (ce : String) (buffer : JSValue) (tr : List Event)
    (h : Request → JSValue → String → Bool) (hf : h r buffer ce = false) :
    hook_stage env r resp (some h) re ce buffer tr =
      .done none (resp.send 403) (tr ++ [.hookInvoked, .sent 403]) := by
  simp only [hook_stage]
  rw [if_neg (by simp [hf])]

/-- The verification stage with a configured hook that passes hands the
same buffer on to the charset-decoding stage. -/
theorem hook_stage_some_true (env : Env) (r : Request) (resp : Response)
    (re : Option String) (ce : String) (buffer : JSValue) (tr : List Event)
    (h : Request → JSValue → String → Bool) (ht : h r buffer ce = true) :
    hook_stage env r resp (some h) re ce buffer tr =
      decode_stage env resp re buffer (tr ++ [.hookInvoked]) := by
  simp only [hook_stage]
  rw [if_pos ht]

/-- With no negotiated charset, the verification-plus-decode stage never
appends a charset-decode event to the trace. -/
theorem hook_stage_none_charset_trace (env : Env) (r : Request) (resp : Response)
    (vb : Option (Request → JSValue → String → Bool)) (ce : String) (buffer : JSValue)
    (tr : List Event) (a : Option (JSValue × Option String)) (resp2 : Response)
    (tr2 : List Event)
    (hdone : hook_stage env r resp vb none ce buffer tr = .done a resp2 tr2) :
    Event.charsetDecoded ∈ tr2 → Event.charsetDecoded ∈ tr := by
  intro hmem
  rcases vb with _ | hk
  · simp only [hook_stage, decode_stage, AttemptResult.done.injEq] at hdone
    obtain ⟨_, _, h3⟩ := hdone
    subst h3
    exact hmem
  · simp only [hook_stage] at hdone
    split at hdone
    · simp only [decode_stage, AttemptResult.done.injEq] at hdone
      obtain ⟨_, _, h3⟩ := hdone
      subst h3
      simpa using hmem
    · simp only [AttemptResult.done.injEq] at hdone
      obtain ⟨_, _, h3⟩ := hdone
      subst h3
      simpa using hmem

/-- C1 (counterexample to the claimed 413): a gzip body whose 2 compressed
bytes decompress to 4 bytes against a 3-byte limit fails ingestion, but the
response status is 400, not 413. -/
theorem c1_counterexample :
    attempt_body envW reqGzW fresh_response condRawW =
      .done none { initiated := true, sends := [400] }
        [.transformConstructed, .bytesRead, .transformDestroyed, .unpiped, .flushed,
          .sent 400] ∧
    (400 : Nat) ≠ 413 := by
  exact ⟨by decide, by decide⟩

/-- C1 (amended): for every supported compressed payload whose decompressed
byte count exceeds `size_limit` (with the compressed bytes within the limit
and the pre-checks passing), ingestion fails — the size limit is re-enforced
against the decoded byte count and never silently exceeded — and the request
is rejected with status 400 (raw-body's limit error falls into the default
branch of the error switch), with the transform destroyed and the source
stream unpiped and flushed. -/
theorem c1_decode_limit (env : Env) (r : Request) (resp : Response) (c : Conditions)
    (bytes : Bytes)
    (h1 : bad_encoding r c = false) (h2 : bad_compression r c = false)
    (hce : content_encoding_of r = "gzip" ∨ content_encoding_of r = "deflate")
    (hsz : r.rawBytes.length ≤ c.limit)
    (hdec : r.decompressed = StreamData.ok bytes)
    (hbomb : c.limit < bytes.length)
    (henc : rb_ok env c = true) :
    attempt_body env r resp c =
      .done none (resp.send 400)
        [.transformConstructed, .bytesRead, .transformDestroyed, .unpiped, .flushed,
          .sent 400] := by
  have hne : content_encoding_of r ≠ "identity" := by
    rcases hce with h | h <;> rw [h] <;> decide
  have hrb : raw_body env r.decompressed c.limit (rb_encoding c) =
      .error RawBodyError.entityTooLarge := by
    rw [hdec]
    exact raw_body_too_large env bytes c.limit (rb_encoding c) hbomb henc
  unfold attempt_body
  rw [if_neg (by simp [h1, h2]), if_pos hsz, if_neg hne, if_pos hce.symm, hrb]
  rfl

/-- C2: for a request whose raw size exceeds the configured limit (and which
passes the 415 pre-checks), the outcome is a 413 rejection appended exactly
once to the response; moreover the overflow wait emits nothing before a
flushed limit event, emits nothing at all when a response has already been
initiated, and the second source variant likewise leaves an
already-initiated response untouched. -/
theorem c2_overflow_413 (env : Env) (r : Request) (resp : Response) (c : Conditions)
    (h1 : bad_encoding r c = false) (h2 : bad_compression r c = false)
    (h3 : c.limit < r.rawBytes.length) (h4 : resp.initiated = false)
    (h5 : r.limitEvents.any (fun p => p.2) = true) :
    attempt_body env r resp c = .done none (resp.send 413) [.flushed, .sent 413] ∧
    (resp.send 413).sends = resp.sends ++ [413] ∧
    (∀ evs : List (Nat × Bool), evs.all (fun p => !p.2) = true →
      limit_wait resp evs = none) ∧
    (∀ (resp0 : Response) (evs : List (Nat × Bool)), resp0.initiated = true →
      limit_wait resp0 evs = none) ∧
    (∀ (resp0 : Response) (evs : List (Nat × Bool)) (resp2 : Response),
      resp0.initiated = true → limit_wait_v2 resp0 evs = some resp2 → resp2 = resp0) := by
  refine ⟨?_, rfl, fun evs he => limit_wait_no_flush resp evs he,
    fun resp0 evs hi => limit_wait_initiated resp0 evs hi,
    fun resp0 evs resp2 hi hr => limit_wait_v2_initiated resp0 evs hi resp2 hr⟩
  unfold attempt_body
  rw [if_neg (by simp [h1, h2]), if_neg (Nat.not_le.mpr h3),
    limit_wait_resolves resp r.limitEvents h4 h5]

/-- C3: when `inflate` is false and the declared Content-Encoding is not
identity, or when a configured `charset_validator` rejects the negotiated
charset, `attempt_body` rejects with 415 immediately: no body bytes are
read and no decompression transform is constructed. -/
theorem c3_precheck_415 (env : Env) (r : Request) (resp : Response) (c : Conditions)
    (h : (c.inflate = false ∧ content_encoding_of r ≠ "identity") ∨
      (∃ v, c.verify_encoding = some v ∧ v (negotiated_charset r c) = false)) :
    attempt_body env r resp c = .done none (resp.send 415) [.sent 415] ∧
    (∀ a resp2 tr, attempt_body env r resp c = .done a resp2 tr →
      Event.bytesRead ∉ tr ∧ Event.transformConstructed ∉ tr) := by
  have hcond : (bad_encoding r c || bad_compression r c) = true := by
    rcases h with ⟨hi, hne⟩ | ⟨v, hv, hrej⟩
    · have hb : bad_compression r c = true := by simp [bad_compression, hi, hne]
      simp [hb]
    · have hb : bad_encoding r c = true := by simp [bad_encoding, hv, hrej]
      simp [hb]
  have hmain : attempt_body env r resp c = .done none (resp.send 415) [.sent 415] := by
    unfold attempt_body
    rw [if_pos hcond]
  refine ⟨hmain, fun a resp2 tr hdone => ?_⟩
  rw [hmain] at hdone
  simp only [AttemptResult.done.injEq] at hdone
  obtain ⟨_, _, h3⟩ := hdone
  subst h3
  decide

/-- C4: when the pre-checks pass and the raw size is within the limit, the
decompression selector rejects any Content-Encoding outside
identity/gzip/deflate with 415, and a materialization failure maps an
unsupported-encoding error to 415 and every other error to 400, with the
transform destroyed and the source stream unpiped and flushed on every
such failure. -/
theorem c4_failure_mapping (env : Env) (r : Request) (resp : Response) (c : Conditions)
    (h1 : bad_encoding r c = false) (h2 : bad_compression r c = false)
    (h3 : r.rawBytes.length ≤ c.limit) :
    (content_encoding_of r ≠ "identity" → content_encoding_of r ≠ "gzip" →
      content_encoding_of r ≠ "deflate" →
      attempt_body env r resp c = .done none (resp.send 415) [.sent 415]) ∧
    (∀ err, (content_encoding_of r = "gzip" ∨ content_encoding_of r = "deflate") →
      raw_body env r.decompressed c.limit (rb_encoding c) = .error err →
      attempt_body env r resp c =
        .done none (resp.send (if err = RawBodyError.encodingUnsupported then 415 else 400))
          [.transformConstructed, .bytesRead, .transformDestroyed, .unpiped, .flushed,
            .sent (if err = RawBodyError.encodingUnsupported then 415 else 400)]) ∧
    (∀ err a resp2 tr, (content_encoding_of r = "gzip" ∨ content_encoding_of r = "deflate") →
      raw_body env r.decompressed c.limit (rb_encoding c) = .error err →
      attempt_body env r resp c = .done a resp2 tr →
      Event.transformDestroyed ∈ tr ∧ Event.unpiped ∈ tr ∧ Event.flushed ∈ tr) := by
  have hpre : ¬(bad_encoding r c || bad_compression r c) = true := by simp [h1, h2]
  have herr : ∀ err, (content_encoding_of r = "gzip" ∨ content_encoding_of r = "deflate") →
      raw_body env r.decompressed c.limit (rb_encoding c) = .error err →
      attempt_body env r resp c =
        .done none (resp.send (if err = RawBodyError.encodingUnsupported then 415 else 400))
          [.transformConstructed, .bytesRead, .transformDestroyed, .unpiped, .flushed,
            .sent (if err = RawBodyError.encodingUnsupported then 415 else 400)] := by
    intro err hce hrb
    have hne : content_encoding_of r ≠ "identity" := by
      rcases hce with h | h <;> rw [h] <;> decide
    unfold attempt_body
    rw [if_neg hpre, if_pos h3, if_neg hne, if_pos hce.symm, hrb]
  refine ⟨?_, herr, ?_⟩
  · intro hni hng hnd
    unfold attempt_body
    rw [if_neg hpre, if_pos h3, if_neg hni, if_neg (not_or.mpr ⟨hnd, hng⟩)]
  · intro err a resp2 tr hce hrb hdone
    rw [herr err hce hrb] at hdone
    simp only [AttemptResult.done.injEq] at hdone
    obtain ⟨_, _, h5⟩ := hdone
    subst h5
    refine ⟨?_, ?_, ?_⟩ <;> simp

/-- C5: with a configured verification hook, the hook observes the raw,
not-yet-text-decoded bytes (`Buffer` of the transport bytes for identity,
`Buffer` of the decompressed bytes for gzip/deflate, since raw-body is then
invoked with no encoding), a non-true return rejects with 403 before any
charset decoding, a true return hands exactly that raw buffer to the
charset-decoding stage, and on a materialization failure the hook is never
invoked. -/
theorem c5_verification_hook (env : Env) (r : Request) (resp : Response) (c : Conditions)
    (h : Request → JSValue → String → Bool)
    (hv : c.verify_body = some h)
    (h1 : bad_encoding r c = false) (h2 : bad_compression r c = false)
    (h3 : r.rawBytes.length ≤ c.limit) :
    (content_encoding_of r = "identity" →
      (h r (JSValue.buf r.rawBytes) (content_encoding_of r) = false →
        attempt_body env r resp c =
          .done none (resp.send 403) [.bytesRead, .hookInvoked, .sent 403]) ∧
      (h r (JSValue.buf r.rawBytes) (content_encoding_of r) = true →
        attempt_body env r resp c =
          decode_stage env resp (negotiated_charset r c) (JSValue.buf r.rawBytes)
            [.bytesRead, .hookInvoked])) ∧
    (∀ bytes, (content_encoding_of r = "deflate" ∨ content_encoding_of r = "gzip") →
      r.decompressed = StreamData.ok bytes → bytes.length ≤ c.limit →
      rb_encoding c = none ∧
      (h r (JSValue.buf bytes) (content_encoding_of r) = false →
        attempt_body env r resp c =
          .done none (resp.send 403)
            [.transformConstructed, .bytesRead, .hookInvoked, .sent 403]) ∧
      (h r (JSValue.buf bytes) (content_encoding_of r) = true →
        attempt_body env r resp c =
          decode_stage env resp (negotiated_charset r c) (JSValue.buf bytes)
            [.transformConstructed, .bytesRead, .hookInvoked])) ∧
    (∀ err a resp2 tr, (content_encoding_of r = "deflate" ∨ content_encoding_of r = "gzip") →
      raw_body env r.decompressed c.limit (rb_encoding c) = .error err →
      attempt_body env r resp c = .done a resp2 tr → Event.hookInvoked ∉ tr) := by
  have hpre : ¬(bad_encoding r c || bad_compression r c) = true := by simp [h1, h2]
  have hrbe : rb_encoding c = none := by simp [rb_encoding, hv]
  refine ⟨?_, ?_, ?_⟩
  · intro hid
    constructor
    · intro hfalse
      rw [attempt_body_identity env r resp c hpre h3 hid, hv,
        hook_stage_some_false env r resp _ _ _ _ h hfalse]
      rfl
    · intro htrue
      rw [attempt_body_identity env r resp c hpre h3 hid, hv,
        hook_stage_some_true env r resp _ _ _ _ h htrue]
      rfl
  · intro bytes hce hdec hlen
    have hne : content_encoding_of r ≠ "identity" := by
      rcases hce with hx | hx <;> rw [hx] <;> decide
    have hrb : raw_body env r.decompressed c.limit (rb_encoding c) = .ok (.buf bytes) := by
      rw [hdec, hrbe]
      exact (raw_body_under_limit env bytes c.limit hlen).1
    refine ⟨hrbe, ?_, ?_⟩
    · intro hfalse
      rw [attempt_body_compressed_ok env r resp c _ hpre h3 hne hce hrb, hv,
        hook_stage_some_false env r resp _ _ _ _ h hfalse]
      rfl
    · intro htrue
      rw [attempt_body_compressed_ok env r resp c _ hpre h3 hne hce hrb, hv,
        hook_stage_some_true env r resp _ _ _ _ h htrue]
      rfl
  · intro err a resp2 tr hce hrb hdone
    have hne : content_encoding_of r ≠ "identity" := by
      rcases hce with hx | hx <;> rw [hx] <;> decide
    rw [attempt_body_compressed_err env r resp c err hpre h3 hne hce hrb] at hdone
    simp only [AttemptResult.done.injEq] at hdone
    obtain ⟨_, _, h5⟩ := hdone
    subst h5
    simp

/-- C6 (counterexample): in raw-byte mode (no `base_charset` configured), a
client-declared `charset=utf-8` parameter still triggers the
charset-decoding stage, so the produced value is a decoded string rather
than the unchanged input buffer. -/
theorem c6_counterexample :
    attempt_body envW reqIdW fresh_response condRawW =
      .done (some (.str [104, 105], some "utf-8")) fresh_response
        [.bytesRead, .charsetDecoded] ∧
    JSValue.str [104, 105] ≠ JSValue.buf reqIdW.rawBytes ∧
    Event.charsetDecoded ∈ [Event.bytesRead, Event.charsetDecoded] := by
  exact ⟨by decide, by decide, by decide⟩

/-- C6 (amended): for identity-encoded payloads within the limit, when no
`base_charset` is configured and the client declares no charset parameter
(raw-byte mode on both sides), the charset-decoding stage is skipped
entirely and the produced buffer is exactly the input bytes, unchanged. -/
theorem c6_raw_passthrough (env : Env) (r : Request) (resp : Response) (c : Conditions)
    (h0 : c.base_encoding = none) (hp : r.charsetParam = none)
    (hve : c.verify_encoding = none)
    (hce : content_encoding_of r = "identity")
    (hsz : r.rawBytes.length ≤ c.limit) :
    (c.verify_body = none →
      attempt_body env r resp c =
        .done (some (.buf r.rawBytes, none)) resp [.bytesRead]) ∧
    (∀ h, c.verify_body = some h →
      h r (JSValue.buf r.rawBytes) (content_encoding_of r) = true →
      attempt_body env r resp c =
        .done (some (.buf r.rawBytes, none)) resp [.bytesRead, .hookInvoked]) ∧
    (∀ a resp2 tr, attempt_body env r resp c = .done a resp2 tr →
      Event.charsetDecoded ∉ tr) := by
  have hbe : bad_encoding r c = false := by simp [bad_encoding, hve]
  have hbc : bad_compression r c = false := by simp [bad_compression, hce]
  have hpre : ¬(bad_encoding r c || bad_compression r c) = true := by simp [hbe, hbc]
  have hneg : negotiated_charset r c = none := by simp [negotiated_charset, hp, h0]
  refine ⟨?_, ?_, ?_⟩
  · intro hvnone
    rw [attempt_body_identity env r resp c hpre hsz hce, hvnone, hneg]
    rfl
  · intro h hv htrue
    rw [attempt_body_identity env r resp c hpre hsz hce, hv, hneg,
      hook_stage_some_true env r resp _ _ _ _ h htrue]
    rfl
  · intro a resp2 tr hdone
    rw [attempt_body_identity env r resp c hpre hsz hce, hneg] at hdone
    intro hmem
    have := hook_stage_none_charset_trace env r resp _ _ _ _ _ _ _ hdone hmem
    simp at this

/-- A successful raw-body drain yields a Buffer or a string. -/
theorem raw_body_ok_shape {env : Env} {data : StreamData} {limit : Nat}
    {enc : Option String} {b : JSValue}
    (h : raw_body env data limit enc = .ok b) :
    (∃ d, b = JSValue.buf d) ∨ (∃ d, b = JSValue.str d) := by
  rcases enc with _ | e <;> rcases data with bytes | _ <;> simp only [raw_body] at h
  · split at h
    · simp at h
    · simp only [Except.ok.injEq] at h
      exact Or.inl ⟨bytes, h.symm⟩
  · simp at h
  · split at h
    · split at h
      · simp at h
      · simp only [Except.ok.injEq] at h
        exact Or.inr ⟨env.iconvDecode bytes e, h.symm⟩
    · simp at h
  · split at h <;> simp at h

/-- A successful charset-decode stage returns the input buffer unchanged or
an iconv-decoded string. -/
theorem decode_stage_ok_shape {env : Env} {resp : Response} {re : Option String}
    {buffer : JSValue} {tr : List Event} {b : JSValue} {ch : Option String}
    {resp2 : Response} {tr2 : List Event}
    (h : decode_stage env resp re buffer tr = .done (some (b, ch)) resp2 tr2) :
    b = buffer ∨ ∃ d, b = JSValue.str d := by
  rcases re with _ | e
  · simp only [decode_stage, AttemptResult.done.injEq, Option.some.injEq,
      Prod.mk.injEq] at h
    exact Or.inl h.1.1.symm
  · simp only [decode_stage] at h
    split at h
    · simp only [AttemptResult.done.injEq, Option.some.injEq, Prod.mk.injEq] at h
      exact Or.inr ⟨env.iconvDecode buffer.rawData e, h.1.1.symm⟩
    · simp at h

/-- A successful verification-plus-decode stage returns the input buffer
unchanged or an iconv-decoded string. -/
theorem hook_stage_ok_shape {env : Env} {r : Request} {resp : Response}
    {vb : Option (Request → JSValue → String → Bool)} {re : Option String} {ce : String}
    {buffer : JSValue} {tr : List Event} {b : JSValue} {ch : Option String}
    {resp2 : Response} {tr2 : List Event}
    (h : hook_stage env r resp vb re ce buffer tr = .done (some (b, ch)) resp2 tr2) :
    b = buffer ∨ ∃ d, b = JSValue.str d := by
  rcases vb with _ | hk
  · simp only [hook_stage] at h
    exact decode_stage_ok_shape h
  · simp only [hook_stage] at h
    split at h
    · exact decode_stage_ok_shape h
    · simp at h

/-- Every buffer produced by a successful `attempt_body` is a Buffer or a
string (never `undefined`). -/
theorem attempt_body_ok_shape {env : Env} {r : Request} {resp : Response} {c : Conditions}
    {b : JSValue} {ch : Option String} {resp2 : Response} {tr : List Event}
    (h : attempt_body env r resp c = .done (some (b, ch)) resp2 tr) :
    (∃ d, b = JSValue.buf d) ∨ (∃ d, b = JSValue.str d) := by
  unfold attempt_body at h
  split at h
  · simp at h
  split at h
  · split at h
    · rcases hook_stage_ok_shape h with hb | hb
      · exact Or.inl ⟨r.rawBytes, hb⟩
      · exact Or.inr hb
    split at h
    · split at h
      · rename_i buffer heq
        rcases hook_stage_ok_shape h with hb | hb
        · subst hb
          exact raw_body_ok_shape heq
        · exact Or.inr hb
      · simp at h
    · simp at h
  · split at h <;> simp at h

/-- Limit events are unaffected by body initialization. -/
theorem init_body_limitEvents (r : Request) (v : JSValue) :
    (init_body r v).limitEvents = r.limitEvents := by
  unfold init_body
  split <;> rfl

/-- Body initialization with a defined default leaves the body defined. -/
theorem init_body_ne_undef (r : Request) (v : JSValue) (hv : v ≠ JSValue.undef) :
    (init_body r v).body ≠ JSValue.undef := by
  unfold init_body
  split
  · rename_i htr
    exact JSValue.truthy_ne_undef r.body htr
  · exact hv

/-- Branch equations for the raw adaptor middleware. -/
theorem run_raw_skipped (env : Env) (c : Conditions) (r : Request) (resp : Response)
    (hval : ¬ validate_request (init_body r (JSValue.buf [])) c = true) :
    run_raw env c r resp = some ⟨init_body r (JSValue.buf []), resp, .skipped⟩ := by
  unfold run_raw
  rw [if_neg hval]

/-- Branch equation: the raw adaptor on a successful attempt stores the
produced buffer. -/
theorem run_raw_accepted {env : Env} {c : Conditions} {r : Request} {resp : Response}
    {b : JSValue} {ch : Option String} {resp2 : Response} {tr : List Event}
    (hval : validate_request (init_body r (JSValue.buf [])) c = true)
    (hc : attempt_body env (init_body r (JSValue.buf [])) resp c =
      .done (some (b, ch)) resp2 tr) :
    run_raw env c r resp =
      some ⟨{ init_body r (JSValue.buf []) with body := b }, resp2, .accepted b ch⟩ := by
  unfold run_raw
  rw [if_pos hval, hc]

/-- Branch equation: the raw adaptor on a rejected attempt leaves the body
alone and reports the last status sent. -/
theorem run_raw_rejected {env : Env} {c : Conditions} {r : Request} {resp : Response}
    {resp2 : Response} {tr : List Event}
    (hval : validate_request (init_body r (JSValue.buf [])) c = true)
    (hc : attempt_body env (init_body r (JSValue.buf [])) resp c = .done none resp2 tr) :
    run_raw env c r resp =
      some ⟨init_body r (JSValue.buf []), resp2, .rejected (resp2.sends.getLastD 0)⟩ := by
  unfold run_raw
  rw [if_pos hval, hc]

/-- Branch equation: the raw adaptor never settles when the attempt hangs. -/
theorem run_raw_hung {env : Env} {c : Conditions} {r : Request} {resp : Response}
    (hval : validate_request (init_body r (JSValue.buf [])) c = true)
    (hc : attempt_body env (init_body r (JSValue.buf [])) resp c = .hung) :
    run_raw env c r resp = none := by
  unfold run_raw
  rw [if_pos hval, hc]

/-- Branch equations for the JSON adaptor middleware. -/
theorem run_json_skipped (env : Env) (strict : Bool) (c : Conditions) (r : Request)
    (resp : Response)
    (hval : ¬ validate_request (init_body r JSValue.obj) c = true) :
    run_json env strict c r resp = some ⟨init_body r JSValue.obj, resp, .skipped⟩ := by
  unfold run_json
  rw [if_neg hval]

/-- Branch equation: the JSON adaptor on a successful attempt applies the
strict first-character check and `JSON.parse`. -/
theorem run_json_success (strict : Bool) {env : Env} {c : Conditions} {r : Request}
    {resp : Response} {b : JSValue} {ch : Option String} {resp2 : Response}
    {tr : List Event}
    (hval : validate_request (init_body r JSValue.obj) c = true)
    (hc : attempt_body env (init_body r JSValue.obj) resp c =
      .done (some (b, ch)) resp2 tr) :
    run_json env strict c r resp =
      if (strict && !(((js_to_string env b ch).headD 0 == 123)
          || ((js_to_string env b ch).headD 0 == 91))) = true then
        some ⟨init_body r JSValue.obj, resp2.send 400, .rejected 400⟩
      else
        match env.jsonParse (js_to_string env b ch) with
        | some v => some ⟨{ init_body r JSValue.obj with body := v }, resp2, .accepted b ch⟩
        | none => some ⟨init_body r JSValue.obj, resp2.send 400, .rejected 400⟩ := by
  unfold run_json
  rw [if_pos hval, hc]

/-- Branch equation: the JSON adaptor on a rejected attempt reports the last
status sent. -/
theorem run_json_rejected {env : Env} {strict : Bool} {c : Conditions} {r : Request}
    {resp : Response} {resp2 : Response} {tr : List Event}
    (hval : validate_request (init_body r JSValue.obj) c = true)
    (hc : attempt_body env (init_body r JSValue.obj) resp c = .done none resp2 tr) :
    run_json env strict c r resp =
      some ⟨init_body r JSValue.obj, resp2, .rejected (resp2.sends.getLastD 0)⟩ := by
  unfold run_json
  rw [if_pos hval, hc]

/-- Branch equation: the JSON adaptor never settles when the attempt hangs. -/
theorem run_json_hung {env : Env} {strict : Bool} {c : Conditions} {r : Request}
    {resp : Response}
    (hval : validate_request (init_body r JSValue.obj) c = true)
    (hc : attempt_body env (init_body r JSValue.obj) resp c = .hung) :
    run_json env strict c r resp = none := by
  unfold run_json
  rw [if_pos hval, hc]

/-- Branch equations for the text adaptor middleware. -/
theorem run_text_skipped (env : Env) (c : Conditions) (r : Request) (resp : Response)
    (hval : ¬ validate_request (init_body r (JSValue.str [])) c = true) :
    run_text env c r resp = some ⟨init_body r (JSValue.str []), resp, .skipped⟩ := by
  unfold run_text
  rw [if_neg hval]

/-- Branch equation: the text adaptor on a successful attempt stores the
buffer only when it is truthy. -/
theorem run_text_success {env : Env} {c : Conditions} {r : Request} {resp : Response}
    {b : JSValue} {ch : Option String} {resp2 : Response} {tr : List Event}
    (hval : validate_request (init_body r (JSValue.str [])) c = true)
    (hc : attempt_body env (init_body r (JSValue.str [])) resp c =
      .done (some (b, ch)) resp2 tr) :
    run_text env c r resp =
      if b.truthy = true then
        some ⟨{ init_body r (JSValue.str []) with body := b }, resp2, .accepted b ch⟩
      else some ⟨init_body r (JSValue.str []), resp2, .accepted b ch⟩ := by
  unfold run_text attempt_body_buffer
  rw [if_pos hval, hc]

/-- Branch equation: the text adaptor on a rejected attempt reports the last
status sent. -/
theorem run_text_rejected {env : Env} {c : Conditions} {r : Request} {resp : Response}
    {resp2 : Response} {tr : List Event}
    (hval : validate_request (init_body r (JSValue.str [])) c = true)
    (hc : attempt_body env (init_body r (JSValue.str [])) resp c = .done none resp2 tr) :
    run_text env c r resp =
      some ⟨init_body r (JSValue.str []), resp2, .rejected (resp2.sends.getLastD 0)⟩ := by
  unfold run_text attempt_body_buffer
  rw [if_pos hval, hc]

/-- Branch equation: the text adaptor never settles when the attempt hangs. -/
theorem run_text_hung {env : Env} {c : Conditions} {r : Request} {resp : Response}
    (hval : validate_request (init_body r (JSValue.str [])) c = true)
    (hc : attempt_body env (init_body r (JSValue.str [])) resp c = .hung) :
    run_text env c r resp = none := by
  unfold run_text attempt_body_buffer
  rw [if_pos hval, hc]

/-- C7: each middleware pass over a request settles into exactly one
outcome value (Accepted, Rejected, or Skipped), and across the whole
pipeline the transport response is sent at most once. -/
theorem c7_single_outcome (env : Env) (strict : Bool) (c : Conditions) (r : Request)
    (hflush : r.limitEvents.any (fun p => p.2) = true) :
    (∃ out, run_raw env c r fresh_response = some out ∧
      out.response.sends.length ≤ 1) ∧
    (∃ out, run_json env strict c r fresh_response = some out ∧
      out.response.sends.length ≤ 1) ∧
    (∃ out, run_text env c r fresh_response = some out ∧
      out.response.sends.length ≤ 1) := by
  have hatt : ∀ v : JSValue,
      attempt_body env (init_body r v) fresh_response c ≠ AttemptResult.hung :=
    fun v => attempt_body_not_hung env (init_body r v) fresh_response c rfl
      (by rw [init_body_limitEvents]; exact hflush)
  refine ⟨?_, ?_, ?_⟩
  · by_cases hval : validate_request (init_body r (JSValue.buf [])) c = true
    · rcases attempt_body_cases env (init_body r (JSValue.buf [])) fresh_response c with
        hc | ⟨b, ch, tr, hc⟩ | ⟨s, tr, hc⟩
      · exact absurd hc (hatt _)
      · exact ⟨_, run_raw_accepted hval hc, by simp [fresh_response]⟩
      · exact ⟨_, run_raw_rejected hval hc, by simp [fresh_response, Response.send]⟩
    · exact ⟨_, run_raw_skipped env c r fresh_response hval, by simp [fresh_response]⟩
  · by_cases hval : validate_request (init_body r JSValue.obj) c = true
    · rcases attempt_body_cases env (init_body r JSValue.obj) fresh_response c with
        hc | ⟨b, ch, tr, hc⟩ | ⟨s, tr, hc⟩
      · exact absurd hc (hatt _)
      · have hrun := run_json_success strict hval hc
        by_cases hstr : (strict && !(((js_to_string env b ch).headD 0 == 123)
            || ((js_to_string env b ch).headD 0 == 91))) = true
        · rw [if_pos hstr] at hrun
          exact ⟨_, hrun, by simp [fresh_response, Response.send]⟩
        · rw [if_neg hstr] at hrun
          rcases hjp : env.jsonParse (js_to_string env b ch) with _ | v <;>
            rw [hjp] at hrun
          · exact ⟨_, hrun, by simp [fresh_response, Response.send]⟩
          · exact ⟨_, hrun, by simp [fresh_response]⟩
      · exact ⟨_, run_json_rejected hval hc, by simp [fresh_response, Response.send]⟩
    · exact ⟨_, run_json_skipped env strict c r fresh_response hval,
        by simp [fresh_response]⟩
  · by_cases hval : validate_request (init_body r (JSValue.str [])) c = true
    · rcases attempt_body_cases env (init_body r (JSValue.str [])) fresh_response c with
        hc | ⟨b, ch, tr, hc⟩ | ⟨s, tr, hc⟩
      · exact absurd hc (hatt _)
      · have hrun := run_text_success hval hc
        by_cases htr : b.truthy = true
        · rw [if_pos htr] at hrun
          exact ⟨_, hrun, by simp [fresh_response]⟩
        · rw [if_neg htr] at hrun
          exact ⟨_, hrun, by simp [fresh_response]⟩
      · exact ⟨_, run_text_rejected hval hc, by simp [fresh_response, Response.send]⟩
    · exact ⟨_, run_text_skipped env c r fresh_response hval, by simp [fresh_response]⟩

/-- C8: the eligibility gate is the pure conjunction "not already received,
transport declares a body, type matcher accepts", and a request already
marked received is Skipped by every adaptor middleware. -/
theorem c8_gate (env : Env) (strict : Bool) (r : Request) (c : Conditions)
    (resp : Response) :
    validate_request r c = (!r.received && (r.hasBody && c.match_type r)) ∧
    (r.received = true →
      (run_raw env c r resp).map (fun out => out.outcome) = some Outcome.skipped ∧
      (run_json env strict c r resp).map (fun out => out.outcome) = some Outcome.skipped ∧
      (run_text env c r resp).map (fun out => out.outcome) = some Outcome.skipped) := by
  constructor
  · unfold validate_request
    cases hr : r.received <;> cases hb : r.hasBody <;> cases hm : c.match_type r <;>
      simp [hr, hb, hm]
  · intro hrec
    have hval : ∀ v : JSValue, ¬ validate_request (init_body r v) c = true := by
      intro v
      have hrcv : (init_body r v).received = true := by
        unfold init_body
        split <;> simpa using hrec
      unfold validate_request
      rw [if_pos hrcv]
      simp
    refine ⟨?_, ?_, ?_⟩
    · rw [run_raw_skipped env c r resp (hval _)]
      rfl
    · rw [run_json_skipped env strict c r resp (hval _)]
      rfl
    · rw [run_text_skipped env c r resp (hval _)]
      rfl

/-- C9 (counterexample): a request whose body is already set to the empty
string (a defined but falsy value) has that body overwritten by the raw
middleware's empty-Buffer default, because the source checks JS truthiness
(`!request.body`), not whether the property is set. -/
theorem c9_counterexample :
    run_raw envW condRawW { reqIdW with received := true, body := JSValue.str [] }
        fresh_response =
      some ⟨{ reqIdW with received := true, body := JSValue.buf [] }, fresh_response,
        Outcome.skipped⟩ ∧
    ({ reqIdW with received := true, body := JSValue.str [] } : Request).body ≠
      JSValue.undef ∧
    JSValue.buf [] ≠ JSValue.str [] := by
  exact ⟨by decide, by decide, by decide⟩

/-- C9 (amended): each adaptor middleware initializes `request.body` to its
format-appropriate default before the eligibility gate runs whenever the
body is unset or falsy (JS truthiness, rather than only when unset); after
the middleware completes, `request.body` is always defined, and a truthy
pre-existing body is preserved on the Skipped path. -/
theorem c9_body_initialized (env : Env) (strict : Bool) (c : Conditions) (r : Request)
    (resp : Response)
    (hjson : ∀ bs v, env.jsonParse bs = some v → v ≠ JSValue.undef) :
    (r.body.truthy = false →
      run_raw env c r resp = run_raw env c { r with body := JSValue.buf [] } resp ∧
      run_json env strict c r resp =
        run_json env strict c { r with body := JSValue.obj } resp ∧
      run_text env c r resp = run_text env c { r with body := JSValue.str [] } resp) ∧
    (∀ out, run_raw env c r resp = some out → out.request.body ≠ JSValue.undef) ∧
    (∀ out, run_json env strict c r resp = some out → out.request.body ≠ JSValue.undef) ∧
    (∀ out, run_text env c r resp = some out → out.request.body ≠ JSValue.undef) ∧
    (r.body.truthy = true → ∀ out, run_raw env c r resp = some out →
      out.outcome = Outcome.skipped → out.request.body = r.body) := by
  have hinit : ∀ v : JSValue, r.body.truthy = false →
      init_body r v = init_body { r with body := v } v := by
    intro v hf
    unfold init_body
    rw [if_neg (by simp [hf])]
    split <;> rfl
  refine ⟨?_, ?_, ?_, ?_, ?_⟩
  · intro hf
    refine ⟨?_, ?_, ?_⟩
    · unfold run_raw
      rw [hinit (JSValue.buf []) hf]
    · unfold run_json
      rw [hinit JSValue.obj hf]
    · unfold run_text
      rw [hinit (JSValue.str []) hf]
  · intro out hout
    by_cases hval : validate_request (init_body r (JSValue.buf [])) c = true
    · rcases attempt_body_cases env (init_body r (JSValue.buf [])) resp c with
        hc | ⟨b, ch, tr, hc⟩ | ⟨s, tr, hc⟩
      · rw [run_raw_hung hval hc] at hout
        simp at hout
      · rw [run_raw_accepted hval hc] at hout
        simp only [Option.some_inj] at hout
        subst hout
        rcases attempt_body_ok_shape hc with ⟨d, hb⟩ | ⟨d, hb⟩ <;> subst hb <;> simp
      · rw [run_raw_rejected hval hc] at hout
        simp only [Option.some_inj] at hout
        subst hout
        exact init_body_ne_undef r _ (by simp)
    · rw [run_raw_skipped env c r resp hval] at hout
      simp only [Option.some_inj] at hout
      subst hout
      exact init_body_ne_undef r _ (by simp)
  · intro out hout
    by_cases hval : validate_request (init_body r JSValue.obj) c = true
    · rcases attempt_body_cases env (init_body r JSValue.obj) resp c with
        hc | ⟨b, ch, tr, hc⟩ | ⟨s, tr, hc⟩
      · rw [run_json_hung hval hc] at hout
        simp at hout
      · rw [run_json_success strict hval hc] at hout
        by_cases hstr : (strict && !(((js_to_string env b ch).headD 0 == 123)
            || ((js_to_string env b ch).headD 0 == 91))) = true
        · rw [if_pos hstr] at hout
          simp only [Option.some_inj] at hout
          subst hout
          exact init_body_ne_undef r _ (by simp)
        · rw [if_neg hstr] at hout
          rcases hjp : env.jsonParse (js_to_string env b ch) with _ | v <;>
            rw [hjp] at hout
          · simp only [Option.some_inj] at hout
            subst hout
            exact init_body_ne_undef r _ (by simp)
          · simp only [Option.some_inj] at hout
            subst hout
            exact hjson _ v hjp
      · rw [run_json_rejected hval hc] at hout
        simp only [Option.some_inj] at hout
        subst hout
        exact init_body_ne_undef r _ (by simp)
    · rw [run_json_skipped env strict c r resp hval] at hout
      simp only [Option.some_inj] at hout
      subst hout
      exact init_body_ne_undef r _ (by simp)
  · intro out hout
    by_cases hval : validate_request (init_body r (JSValue.str [])) c = true
    · rcases attempt_body_cases env (init_body r (JSValue.str [])) resp c with
        hc | ⟨b, ch, tr, hc⟩ | ⟨s, tr, hc⟩
      · rw [run_text_hung hval hc] at hout
        simp at hout
      · rw [run_text_success hval hc] at hout
        by_cases htr : b.truthy = true
        · rw [if_pos htr] at hout
          simp only [Option.some_inj] at hout
          subst hout
          exact JSValue.truthy_ne_undef b htr
        · rw [if_neg htr] at hout
          simp only [Option.some_inj] at hout
          subst hout
          exact init_body_ne_undef r _ (by simp)
      · rw [run_text_rejected hval hc] at hout
        simp only [Option.some_inj] at hout
        subst hout
        exact init_body_ne_undef r _ (by simp)
    · rw [run_text_skipped env c r resp hval] at hout
      simp only [Option.some_inj] at hout
      subst hout
      exact init_body_ne_undef r _ (by simp)
  · intro htr out hout hskip
    have hinit_eq : init_body r (JSValue.buf []) = r := by
      unfold init_body
      rw [if_pos htr]
    by_cases hval : validate_request (init_body r (JSValue.buf [])) c = true
    · rcases attempt_body_cases env (init_body r (JSValue.buf [])) resp c with
        hc | ⟨b, ch, tr, hc⟩ | ⟨s, tr, hc⟩
      · rw [run_raw_hung hval hc] at hout
        simp at hout
      · rw [run_raw_accepted hval hc] at hout
        simp only [Option.some_inj] at hout
        subst hout
        simp at hskip
      · rw [run_raw_rejected hval hc] at hout
        simp only [Option.some_inj] at hout
        subst hout
        simp at hskip
    · rw [run_raw_skipped env c r resp hval] at hout
      simp only [Option.some_inj] at hout
      subst hout
      simp only [hinit_eq]

/-- C10: when the encoding is gzip/deflate and no verification hook is
configured, raw-body receives `base_encoding`, so the materialized value is
already a string decoded with it, and the charset-decoding stage then
decodes that value a second time; with a hook configured raw-body instead
receives no encoding and yields the raw byte buffer — so the presence of a
hook changes the type and value handed to the charset decoder. -/
theorem c10_double_decode (env : Env) (r : Request) (resp : Response) (c : Conditions)
    (e : String) (bytes : Bytes)
    (hv : c.verify_body = none) (hbase : c.base_encoding = some e)
    (hparam : r.charsetParam = none)
    (h1 : bad_encoding r c = false) (h2 : bad_compression r c = false)
    (hce : content_encoding_of r = "deflate" ∨ content_encoding_of r = "gzip")
    (hsz : r.rawBytes.length ≤ c.limit)
    (hdec : r.decompressed = StreamData.ok bytes) (hlen : bytes.length ≤ c.limit)
    (hsupp : env.iconvSupported e = true) :
    rb_encoding c = some e ∧
    raw_body env r.decompressed c.limit (rb_encoding c) =
      .ok (JSValue.str (env.iconvDecode bytes e)) ∧
    attempt_body env r resp c =
      .done (some (JSValue.str (env.iconvDecode (env.iconvDecode bytes e) e), some e)) resp
        [.transformConstructed, .bytesRead, .charsetDecoded] ∧
    (∀ h0 : Request → JSValue → String → Bool,
      rb_encoding { c with verify_body := some h0 } = none ∧
      raw_body env r.decompressed c.limit (rb_encoding { c with verify_body := some h0 }) =
        .ok (JSValue.buf bytes)) ∧
    JSValue.str (env.iconvDecode bytes e) ≠ JSValue.buf bytes := by
  have hpre : ¬(bad_encoding r c || bad_compression r c) = true := by simp [h1, h2]
  have hne : content_encoding_of r ≠ "identity" := by
    rcases hce with hx | hx <;> rw [hx] <;> decide
  have hrbe : rb_encoding c = some e := by simp [rb_encoding, hv, hbase]
  have hneg : negotiated_charset r c = some e := by
    simp [negotiated_charset, hparam, hbase]
  have hrb : raw_body env r.decompressed c.limit (rb_encoding c) =
      .ok (JSValue.str (env.iconvDecode bytes e)) := by
    rw [hdec, hrbe]
    exact (raw_body_under_limit env bytes c.limit hlen).2 e hsupp
  refine ⟨hrbe, hrb, ?_, ?_, by simp⟩
  · rw [attempt_body_compressed_ok env r resp c _ hpre hsz hne hce hrb, hv, hneg]
    simp only [hook_stage, decode_stage]
    rw [if_pos hsupp]
    rfl
  · intro h0
    refine ⟨by simp [rb_encoding], ?_⟩
    rw [hdec, show rb_encoding { c with verify_body := some h0 } = none by
      simp [rb_encoding]]
    exact (raw_body_under_limit env bytes c.limit hlen).1

/-- A concrete identity request with no client charset parameter. -/
def reqIdPlainW : Request := { reqIdW with charsetParam := none }

/-- A concrete identity request whose 5 raw bytes exceed the 3-byte limit. -/
def reqOverW : Request := { reqIdPlainW with rawBytes := [1, 2, 3, 4, 5] }

/-- A concrete gzip request whose decompression stream fails (corrupt data). -/
def reqGzFailW : Request := { reqGzW with decompressed := .failed }

/-- A concrete request already marked received. -/
def reqRecvW : Request := { reqIdW with received := true }

/-- Concrete conditions with a verification hook that always rejects. -/
def condHookW : Conditions := { condRawW with verify_body := some (fun _ _ _ => false) }

/-- Concrete conditions with a utf-8 base encoding and a 10-byte limit. -/
def condBaseW : Conditions :=
  { condRawW with base_encoding := some "utf-8", limit := 10 }

/-- Witness for the amended C1 at a concrete decompression bomb. -/
theorem c1_decode_limit_witness :
    attempt_body envW reqGzW fresh_response condRawW =
      .done none (fresh_response.send 400)
        [.transformConstructed, .bytesRead, .transformDestroyed, .unpiped, .flushed,
          .sent 400] :=
  c1_decode_limit envW reqGzW fresh_response condRawW [1, 2, 3, 4] (by decide) (by decide)
    (Or.inl (by decide)) (by decide) rfl (by decide) (by decide)

/-- Witness for C2 at a concrete oversized request. -/
theorem c2_overflow_413_witness :
    attempt_body envW reqOverW fresh_response condRawW =
      .done none (fresh_response.send 413) [.flushed, .sent 413] :=
  (c2_overflow_413 envW reqOverW fresh_response condRawW (by decide) (by decide)
    (by decide) rfl (by decide)).1

/-- Witness for C3 at a concrete gzip request with decompression disabled. -/
theorem c3_precheck_415_witness :
    attempt_body envW reqGzW fresh_response { condRawW with inflate := false } =
      .done none (fresh_response.send 415) [.sent 415] :=
  (c3_precheck_415 envW reqGzW fresh_response { condRawW with inflate := false }
    (Or.inl ⟨rfl, by decide⟩)).1

/-- Witness for C4 at a concrete corrupt gzip stream (400 mapping). -/
theorem c4_failure_mapping_witness :
    attempt_body envW reqGzFailW fresh_response condRawW =
      .done none (fresh_response.send 400)
        [.transformConstructed, .bytesRead, .transformDestroyed, .unpiped, .flushed,
          .sent 400] :=
  (c4_failure_mapping envW reqGzFailW fresh_response condRawW (by decide) (by decide)
    (by decide)).2.1 RawBodyError.streamError (Or.inl (by decide)) rfl

/-- Witness for C5 at a concrete always-rejecting hook. -/
theorem c5_verification_hook_witness :
    attempt_body envW reqIdPlainW fresh_response condHookW =
      .done none (fresh_response.send 403) [.bytesRead, .hookInvoked, .sent 403] :=
  ((c5_verification_hook envW reqIdPlainW fresh_response condHookW (fun _ _ _ => false)
    rfl (by decide) (by decide) (by decide)).1 (by decide)).1 rfl

/-- Witness for the amended C6 at a concrete raw-mode request. -/
theorem c6_raw_passthrough_witness :
    attempt_body envW reqIdPlainW fresh_response condRawW =
      .done (some (.buf reqIdPlainW.rawBytes, none)) fresh_response [.bytesRead] :=
  (c6_raw_passthrough envW reqIdPlainW fresh_response condRawW rfl rfl rfl (by decide)
    (by decide)).1 rfl

/-- Witness for C7 at a concrete request. -/
theorem c7_single_outcome_witness :
    (∃ out, run_raw envW condRawW reqIdPlainW fresh_response = some out ∧
      out.response.sends.length ≤ 1) ∧
    (∃ out, run_json envW true condRawW reqIdPlainW fresh_response = some out ∧
      out.response.sends.length ≤ 1) ∧
    (∃ out, run_text envW condRawW reqIdPlainW fresh_response = some out ∧
      out.response.sends.length ≤ 1) :=
  c7_single_outcome envW true condRawW reqIdPlainW (by decide)

/-- Witness for C8 at a concrete request already marked received. -/
theorem c8_gate_witness :
    validate_request reqRecvW condRawW =
      (!reqRecvW.received && (reqRecvW.hasBody && condRawW.match_type reqRecvW)) ∧
    ((run_raw envW condRawW reqRecvW fresh_response).map (fun out => out.outcome) =
        some Outcome.skipped ∧
      (run_json envW true condRawW reqRecvW fresh_response).map (fun out => out.outcome) =
        some Outcome.skipped ∧
      (run_text envW condRawW reqRecvW fresh_response).map (fun out => out.outcome) =
        some Outcome.skipped) :=
  ⟨(c8_gate envW true reqRecvW condRawW fresh_response).1,
    (c8_gate envW true reqRecvW condRawW fresh_response).2 rfl⟩

/-- Witness for the amended C9 at a concrete falsy body. -/
theorem c9_body_initialized_witness :
    ({ reqIdW with body := JSValue.str [] } : Request).body.truthy = false ∧
    run_raw envW condRawW { reqIdW with body := JSValue.str [] } fresh_response =
      run_raw envW condRawW { reqIdW with body := JSValue.buf [] } fresh_response :=
  ⟨by decide, ((c9_body_initialized envW true condRawW
      { reqIdW with body := JSValue.str [] } fresh_response
      (fun bs v h => by simp [envW] at h; subst h; decide)).1 (by decide)).1⟩

/-- Witness for C10 at a concrete gzip request with a utf-8 base encoding. -/
theorem c10_double_decode_witness :
    attempt_body envW reqGzW fresh_response condBaseW =
      .done (some (JSValue.str (envW.iconvDecode (envW.iconvDecode [1, 2, 3, 4] "utf-8")
          "utf-8"), some "utf-8")) fresh_response
        [.transformConstructed, .bytesRead, .charsetDecoded] :=
  (c10_double_decode envW reqGzW fresh_response condBaseW "utf-8" [1, 2, 3, 4] rfl rfl
    rfl (by decide) (by decide) (Or.inr (by decide)) (by decide) rfl (by decide)
    (by decide)).2.2.1

end BodyParser
